import Mathlib

/-! Verification of the authentication-and-session core of bancarios.tech:
the error taxonomy (infra/errors.js), the data-access layer
(infra/database.js, current revision with ServiceError wrapping), credential
hashing (models/password.js), the user directory (models/user.js), the
session lifecycle (models/session.js, current revision with expireById) and
the authentication service (models/authentication.js), shallowly embedded as
pure Lean functions with explicit table states, explicit clock values (the
milliseconds of Date.now() / the database NOW()), and explicit randomness
(bcrypt salts, session tokens). -/

/-- The `this.name` tag set by each error class constructor of
infra/errors.js. -/
inductive ErrorName
| internalServerError
| serviceError
| validationError
| notFoundError
| unauthorizedError
| methodNotAllowedError
deriving DecidableEq, Repr

/-- A raw driver-level exception coming out of the pg library, never
inspected by the core beyond being stored as a cause. -/
structure JsError where
  message : String
deriving DecidableEq, Repr

/-- The common shape of every error class of infra/errors.js: a stable
name, a human-readable message, a suggested action, an HTTP status code,
and the internal-only cause. -/
structure AppError where
  name : ErrorName
  message : String
  action : String
  statusCode : Nat
  cause : Option JsError
deriving DecidableEq, Repr

deriving instance DecidableEq for Except

/-- Result shape of pg's client.query as consumed by the models:
`rows` plus `rowCount`. -/
structure QueryResult (Row : Type) where
  rows : List Row
deriving DecidableEq, Repr

/-- `results.rowCount`: the number of returned rows. -/
def QueryResult.rowCount {Row : Type} (r : QueryResult Row) : Nat :=
  r.rows.length

/-- The behavior of the pg driver during one database.query call:
whether getNewClient (new Client + connect) succeeds, and — if a client is
obtained — whether client.query succeeds and with which result. -/
structure DriverBehavior (Row : Type) where
  connect : Except JsError Unit
  run : Except JsError (QueryResult Row)
deriving DecidableEq, Repr

/-- The ServiceError built in the catch block of database.query, with the
fixed action and status code that the ServiceError class constructor of
infra/errors.js assigns; the original driver error is kept as the cause. -/
def queryServiceError (e : JsError) : AppError :=
  { name := .serviceError
  , message := "Erro na conexão com Banco ou na Query."
  , action := "Verifique se o serviço está disponível."
  , statusCode := 503
  , cause := some e }

/-- Trace of one database.query call: its outcome, whether a client was
ever acquired, and whether client.end() was executed for it. -/
structure QueryTrace (Row : Type) where
  result : Except AppError (QueryResult Row)
  clientAcquired : Bool
  clientEnded : Bool
deriving DecidableEq, Repr

/-- database.query (infra/database.js, current revision): try/catch/finally
where the catch wraps any error into a ServiceError and the finally runs
`await client?.end()` — the optional chaining skips end() when getNewClient
itself failed and `client` is still undefined. end() is modelled as a
side-effect that always succeeds. -/
def database.query {Row : Type} (d : DriverBehavior Row) : QueryTrace Row :=
  match d.connect with
  | .error e =>
    { result := .error (queryServiceError e)
    , clientAcquired := false
    , clientEnded := false }
  | .ok _ =>
    match d.run with
    | .ok r =>
      { result := .ok r, clientAcquired := true, clientEnded := true }
    | .error e =>
      { result := .error (queryServiceError e)
      , clientAcquired := true
      , clientEnded := true }

/-- A bcryptjs encoded hash: a single self-describing value embedding the
cost (rounds), the salt, and the digest — no separate salt storage. -/
structure BcryptHash where
  rounds : Nat
  salt : String
  digest : String
deriving DecidableEq, Repr

/-- The bcrypt key derivation is external library code (the bcryptjs
dependency); it is modelled by its interface contract as a deterministic
function of the salt and the password that is collision-free in the
password for a fixed salt. -/
def bcryptDigest (salt password : String) : String :=
  String.append salt password

/-- bcryptjs.hash(password, rounds), with the salt drawn by the library
made an explicit parameter. -/
def bcryptjs.hash (password : String) (rounds : Nat) (salt : String) : BcryptHash :=
  { rounds := rounds, salt := salt, digest := bcryptDigest salt password }

/-- bcryptjs.compare(providedPassword, storedPassword): the salt is
extracted from the stored encoded value, the digest is recomputed from the
provided password, and the result is the equality of digests. -/
def bcryptjs.compare (providedPassword : String) (storedPassword : BcryptHash) : Bool :=
  bcryptDigest storedPassword.salt providedPassword == storedPassword.digest

/-- Deployment mode read from process.env.NODE_ENV. -/
inductive NodeEnv
| production
| development
| test
deriving DecidableEq, Repr

/-- getNumberOfRounds of models/password.js: 14 rounds in production,
1 round otherwise. -/
def getNumberOfRounds (env : NodeEnv) : Nat :=
  if env = .production then 14 else 1

/-- password.hash of models/password.js, with NODE_ENV and the salt drawn
by bcrypt made explicit. -/
def password.hash (env : NodeEnv) (salt : String) (pw : String) : BcryptHash :=
  bcryptjs.hash pw (getNumberOfRounds env) salt

/-- password.compare of models/password.js. -/
def password.compare (providedPassword : String) (storedPassword : BcryptHash) : Bool :=
  bcryptjs.compare providedPassword storedPassword

/-- Postgres LOWER(), used by every case-insensitive lookup of
models/user.js. -/
def sqlLower (s : String) : String :=
  String.mk (s.data.map Char.toLower)

/-- A row of the users table. -/
structure UserRow where
  id : Nat
  username : String
  email : String
  password : BcryptHash
  created_at : Int
  updated_at : Int
deriving DecidableEq, Repr

/-- The users table; nextId models the database generating fresh ids. -/
structure UsersTable where
  rows : List UserRow
  nextId : Nat
deriving DecidableEq, Repr

/-- The NotFoundError thrown by user.findOneByUsername. -/
def usernameNotFoundError : AppError :=
  { name := .notFoundError
  , message := "O username informado não foi encontrado no sistema."
  , action := "Verifique se o username está digitado corretamente."
  , statusCode := 404
  , cause := none }

/-- The NotFoundError thrown by user.findOneByEmail. -/
def emailNotFoundError : AppError :=
  { name := .notFoundError
  , message := "O email informado não foi encontrado no sistema."
  , action := "Verifique se o email está digitado corretamente."
  , statusCode := 404
  , cause := none }

/-- user.findOneByUsername: SELECT * WHERE LOWER(username) = LOWER($1)
LIMIT 1; rowCount 0 throws NotFoundError. -/
def user.findOneByUsername (t : UsersTable) (username : String) :
    Except AppError UserRow :=
  match t.rows.filter (fun r => sqlLower r.username == sqlLower username) with
  | [] => .error usernameNotFoundError
  | r :: _ => .ok r

/-- user.findOneByEmail: SELECT * WHERE LOWER(email) = LOWER($1) LIMIT 1;
rowCount 0 throws NotFoundError. -/
def user.findOneByEmail (t : UsersTable) (email : String) :
    Except AppError UserRow :=
  match t.rows.filter (fun r => sqlLower r.email == sqlLower email) with
  | [] => .error emailNotFoundError
  | r :: _ => .ok r

/-- The ValidationError thrown by validateUniqueUsername. -/
def usernameTakenError : AppError :=
  { name := .validationError
  , message := "O username informado já está sendo utilizado."
  , action := "Utilize outro username para realizar esta operação."
  , statusCode := 400
  , cause := none }

/-- The ValidationError thrown by validateUniqueEmail. -/
def emailTakenError : AppError :=
  { name := .validationError
  , message := "O email informado já está sendo utilizado."
  , action := "Utilize outro email para realizar esta operação."
  , statusCode := 400
  , cause := none }

/-- validateUniqueUsername of models/user.js: SELECT username WHERE
LOWER(username) = LOWER($1); any matching row (rowCount > 0) throws
ValidationError. The probe does not exclude any row. -/
def user.validateUniqueUsername (t : UsersTable) (username : String) :
    Except AppError Unit :=
  if (t.rows.filter (fun r => sqlLower r.username == sqlLower username)).length > 0 then
    .error usernameTakenError
  else
    .ok ()

/-- validateUniqueEmail of models/user.js, symmetric to
validateUniqueUsername. -/
def user.validateUniqueEmail (t : UsersTable) (email : String) :
    Except AppError Unit :=
  if (t.rows.filter (fun r => sqlLower r.email == sqlLower email)).length > 0 then
    .error emailTakenError
  else
    .ok ()

/-- The userInputValues payload of user.create. -/
structure UserInput where
  username : String
  email : String
  password : String
deriving DecidableEq, Repr

/-- user.create of models/user.js, state-passing: validate username
uniqueness, then email uniqueness, then hash the password and INSERT,
returning the inserted row (RETURNING *) together with the table after the
call; a validation failure performs no insert. -/
def user.create (env : NodeEnv) (salt : String) (now : Int) (t : UsersTable)
    (input : UserInput) : Except AppError UserRow × UsersTable :=
  match user.validateUniqueUsername t input.username with
  | .error e => (.error e, t)
  | .ok _ =>
    match user.validateUniqueEmail t input.email with
    | .error e => (.error e, t)
    | .ok _ =>
      let hashed := password.hash env salt input.password
      let newRow : UserRow :=
        { id := t.nextId
        , username := input.username
        , email := input.email
        , password := hashed
        , created_at := now
        , updated_at := now }
      (.ok newRow, { rows := t.rows ++ [newRow], nextId := t.nextId + 1 })

/-- The userInputValues payload of user.update; a `some` field models the
corresponding key being present in the object (the `"key" in object`
checks). -/
structure UserUpdateInput where
  username : Option String
  email : Option String
  password : Option String
deriving DecidableEq, Repr

/-- user.update of models/user.js, state-passing: load the current row by
username, re-validate uniqueness only for the fields present in the
payload, re-hash the password if present, merge the payload over the
current row, and UPDATE by id (RETURNING *); any failure before the UPDATE
leaves the table unchanged. -/
def user.update (env : NodeEnv) (salt : String) (now : Int) (t : UsersTable)
    (username : String) (input : UserUpdateInput) :
    Except AppError UserRow × UsersTable :=
  match user.findOneByUsername t username with
  | .error e => (.error e, t)
  | .ok currentUser =>
    match (match input.username with
           | some u => user.validateUniqueUsername t u
           | none => .ok ()) with
    | .error e => (.error e, t)
    | .ok _ =>
      match (match input.email with
             | some m => user.validateUniqueEmail t m
             | none => .ok ()) with
      | .error e => (.error e, t)
      | .ok _ =>
        let newHash :=
          match input.password with
          | some p => password.hash env salt p
          | none => currentUser.password
        let merged : UserRow :=
          { currentUser with
              username := input.username.getD currentUser.username
            , email := input.email.getD currentUser.email
            , password := newHash
            , updated_at := now }
        (.ok merged,
         { t with rows := t.rows.map (fun r => if r.id == currentUser.id then merged else r) })

/-- A row of the sessions table. -/
structure SessionRow where
  id : Nat
  token : String
  user_id : Nat
  expires_at : Int
  created_at : Int
  updated_at : Int
deriving DecidableEq, Repr

/-- The sessions table; nextId models the database generating fresh ids. -/
structure SessionsTable where
  rows : List SessionRow
  nextId : Nat
deriving DecidableEq, Repr

/-- Session validity window of models/session.js: 30 days in
milliseconds. -/
def session.EXPIRATION_IN_MILLISECONDS : Int :=
  60 * 60 * 24 * 30 * 1000

/-- The Postgres interval '1 year' subtracted by expireById, modelled as
365 days in milliseconds. -/
def ONE_YEAR_IN_MILLISECONDS : Int :=
  365 * 24 * 60 * 60 * 1000

/-- The UnauthorizedError thrown by session.findOneValidByToken when no
row matches — the same value whether the token never existed or has
expired. -/
def sessionNotActiveError : AppError :=
  { name := .unauthorizedError
  , message := "Usuário não possui sessão ativa."
  , action := "Verifique se este usuário está logado e tente novamente."
  , statusCode := 401
  , cause := none }

/-- session.findOneValidByToken: SELECT * WHERE token = $1 AND
expires_at > NOW() LIMIT 1; rowCount 0 throws UnauthorizedError. -/
def session.findOneValidByToken (now : Int) (t : SessionsTable)
    (sessionToken : String) : Except AppError SessionRow :=
  match t.rows.filter (fun s => s.token == sessionToken && now < s.expires_at) with
  | [] => .error sessionNotActiveError
  | s :: _ => .ok s

/-- session.create, with the random 96-hex-character token and the clock
made explicit: INSERT with expires_at = now + 30 days, RETURNING *. -/
def session.create (now : Int) (token : String) (t : SessionsTable)
    (userId : Nat) : SessionRow × SessionsTable :=
  let expiresAt := now + session.EXPIRATION_IN_MILLISECONDS
  let newRow : SessionRow :=
    { id := t.nextId
    , token := token
    , user_id := userId
    , expires_at := expiresAt
    , created_at := now
    , updated_at := now }
  (newRow, { rows := t.rows ++ [newRow], nextId := t.nextId + 1 })

/-- session.renew: UPDATE sessions SET expires_at = $2 (now + 30 days),
updated_at = NOW() WHERE id = $1 RETURNING *; the JS returns
results.rows[0], which is undefined (none) when no row matched. -/
def session.renew (now : Int) (t : SessionsTable) (sessionId : Nat) :
    Option SessionRow × SessionsTable :=
  let expiresAt := now + session.EXPIRATION_IN_MILLISECONDS
  let updatedRows := t.rows.map (fun s =>
    if s.id == sessionId then
      { s with expires_at := expiresAt, updated_at := now }
    else s)
  ((updatedRows.filter (fun s => s.id == sessionId)).head?,
   { t with rows := updatedRows })

/-- session.expireById: UPDATE sessions SET expires_at = expires_at -
interval '1 year', updated_at = NOW() WHERE id = $1 RETURNING *; the JS
returns results.rows[0], undefined (none) when no row matched. -/
def session.expireById (now : Int) (t : SessionsTable) (sessionId : Nat) :
    Option SessionRow × SessionsTable :=
  let updatedRows := t.rows.map (fun s =>
    if s.id == sessionId then
      { s with expires_at := s.expires_at - ONE_YEAR_IN_MILLISECONDS
             , updated_at := now }
    else s)
  ((updatedRows.filter (fun s => s.id == sessionId)).head?,
   { t with rows := updatedRows })

/-- The generic UnauthorizedError re-thrown by the outer catch of
getAuthenticatedUser — the only authentication error a caller can see. -/
def genericAuthError : AppError :=
  { name := .unauthorizedError
  , message := "Dados de autenticação não conferem."
  , action := "Verifique se os dados enviados estão corretos."
  , statusCode := 401
  , cause := none }

/-- The internal UnauthorizedError raised when the email lookup finds no
user (never reaches the caller). -/
def emailMismatchError : AppError :=
  { name := .unauthorizedError
  , message := "Email não confere."
  , action := "Verifique se este dado está correto."
  , statusCode := 401
  , cause := none }

/-- The internal UnauthorizedError raised when the password comparison
fails (never reaches the caller). -/
def passwordMismatchError : AppError :=
  { name := .unauthorizedError
  , message := "Senha não confere."
  , action := "Verifique se este dado está correto."
  , statusCode := 401
  , cause := none }

/-- Inner helper findUserByEmail of models/authentication.js: NotFoundError
from the user directory becomes an internal UnauthorizedError; other errors
pass through. -/
def authentication.findUserByEmail (t : UsersTable) (providedEmail : String) :
    Except AppError UserRow :=
  match user.findOneByEmail t providedEmail with
  | .ok u => .ok u
  | .error e =>
    if e.name = .notFoundError then .error emailMismatchError else .error e

/-- Inner helper validatePassword of models/authentication.js: a failed
bcrypt comparison raises an internal UnauthorizedError. -/
def authentication.validatePassword (providedPassword : String)
    (storedPassword : BcryptHash) : Except AppError Unit :=
  if password.compare providedPassword storedPassword then .ok ()
  else .error passwordMismatchError

/-- getAuthenticatedUser of models/authentication.js: the outer catch
replaces any UnauthorizedError by the generic one; other errors propagate
unchanged. -/
def authentication.getAuthenticatedUser (t : UsersTable)
    (providedEmail providedPassword : String) : Except AppError UserRow :=
  let attempt : Except AppError UserRow :=
    match authentication.findUserByEmail t providedEmail with
    | .error e => .error e
    | .ok storedUser =>
      match authentication.validatePassword providedPassword storedUser.password with
      | .error e => .error e
      | .ok _ => .ok storedUser
  match attempt with
  | .ok u => .ok u
  | .error e =>
    if e.name = .unauthorizedError then .error genericAuthError else .error e

/-- The users-table invariant of spec §3: no two stored users share a
username under case-insensitive comparison. -/
def uniqueUsernames (t : UsersTable) : Prop :=
  t.rows.Pairwise (fun a b => sqlLower a.username ≠ sqlLower b.username)

/-- The users-table invariant of spec §3: no two stored users share an
email under case-insensitive comparison. -/
def uniqueEmails (t : UsersTable) : Prop :=
  t.rows.Pairwise (fun a b => sqlLower a.email ≠ sqlLower b.email)

/-- Primary-key uniqueness of users.id, guaranteed by the database. -/
def uniqueIds (t : UsersTable) : Prop :=
  t.rows.Pairwise (fun a b => a.id ≠ b.id)

/-- A concrete stored credential hash for the witnesses. -/
def demoHash : BcryptHash := password.hash .development "salt" "correct"

/-- A concrete one-user directory for the witnesses. -/
def demoUsers : UsersTable :=
  { rows := [{ id := 1, username := "Ana", email := "ana@x.com"
             , password := demoHash, created_at := 0, updated_at := 0 }]
  , nextId := 2 }

/-- A concrete one-session store for the witnesses. -/
def demoSessions : SessionsTable :=
  { rows := [{ id := 1, token := "tok", user_id := 1
             , expires_at := 2592000000, created_at := 0, updated_at := 0 }]
  , nextId := 2 }

/-- An empty user directory for the witnesses. -/
def emptyUsers : UsersTable := { rows := [], nextId := 1 }

/-- A concrete signup payload for the witnesses. -/
def fooInput : UserInput :=
  { username := "foo", email := "foo@x.com", password := "pw" }

/-- The row user.create inserts for fooInput into the empty directory. -/
def fooUser : UserRow :=
  { id := 1, username := "foo", email := "foo@x.com"
  , password := password.hash .development "s1" "pw"
  , created_at := 0, updated_at := 0 }

/-- The directory after creating fooUser. -/
def fooUsers : UsersTable := { rows := [fooUser], nextId := 2 }

/-- A second signup payload reusing fooInput's username in another
letter-case. -/
def fooInputCaseVariant : UserInput :=
  { username := "FOO", email := "other@x.com", password := "pw2" }

/-- Helper: a list mapped by a function that fixes each of its elements is
unchanged. -/
lemma map_id_of_eq {α : Type} (f : α → α) (l : List α) (h : ∀ a ∈ l, f a = a) :
    l.map f = l := by
  induction l with
  | nil => rfl
  | cons a as ih => simp [h a (by simp), ih fun b hb => h b (by simp [hb])]

/-- Helper: the modelled bcrypt digest is collision-free in the password
for a fixed salt. -/
lemma bcryptDigest_inj (salt p q : String) (h : bcryptDigest salt p = bcryptDigest salt q) :
    p = q := by
  rcases salt with ⟨sd⟩
  rcases p with ⟨pd⟩
  rcases q with ⟨qd⟩
  unfold bcryptDigest at h
  injection h with h'
  exact congrArg String.mk (List.append_cancel_left h')

/-- C2: whenever the Data Access Layer's query fails — whether the
connection or the execution failed — the error raised is a ServiceError
carrying the original low-level driver error as its internal cause; no raw
driver exception leaves database.query. -/
theorem query_wraps_failures_in_ServiceError {Row : Type} (d : DriverBehavior Row)
    (err : AppError) (hfail : (database.query d).result = .error err) :
    err.name = .serviceError ∧
    ∃ e : JsError, err.cause = some e ∧ (d.connect = .error e ∨ d.run = .error e) := by
  rcases d with ⟨conn, run⟩
  cases conn with
  | error e =>
    simp only [database.query] at hfail
    injection hfail with h'
    subst h'
    exact ⟨rfl, e, rfl, Or.inl rfl⟩
  | ok u =>
    cases run with
    | ok r => simp [database.query] at hfail
    | error e =>
      simp only [database.query] at hfail
      injection hfail with h'
      subst h'
      exact ⟨rfl, e, rfl, Or.inr rfl⟩

/-- Witness for C2 at a concrete connection failure. -/
theorem query_wraps_failures_in_ServiceError_witness :
    (database.query (DriverBehavior.mk (.error (JsError.mk "ECONNREFUSED"))
        (.ok (QueryResult.mk ([] : List Nat))))).result =
      .error (queryServiceError (JsError.mk "ECONNREFUSED")) ∧
    (queryServiceError (JsError.mk "ECONNREFUSED")).name = .serviceError ∧
    ∃ e : JsError, (queryServiceError (JsError.mk "ECONNREFUSED")).cause = some e ∧
      ((DriverBehavior.mk (.error (JsError.mk "ECONNREFUSED"))
          (.ok (QueryResult.mk ([] : List Nat)))).connect = .error e ∨
       (DriverBehavior.mk (.error (JsError.mk "ECONNREFUSED"))
          (.ok (QueryResult.mk ([] : List Nat)))).run = .error e) := by
  refine ⟨by decide, ?_⟩
  exact query_wraps_failures_in_ServiceError _ _ (by decide)

/-- C7: on every exit path of database.query the connection is released —
a client is acquired exactly when connection succeeds, end() runs exactly
when a client was acquired (the optional chaining skips it when acquisition
failed), and the outcome is either the driver's result or the ServiceError
wrapping the call's own failure, so the finally block raises nothing. -/
theorem query_releases_connection_on_every_path {Row : Type} (d : DriverBehavior Row) :
    ((database.query d).clientAcquired = true ↔ ∃ u, d.connect = .ok u) ∧
    ((database.query d).clientEnded = (database.query d).clientAcquired) ∧
    ((∃ r, (database.query d).result = .ok r ∧ d.run = .ok r) ∨
     (∃ e, (database.query d).result = .error (queryServiceError e) ∧
       (d.connect = .error e ∨ d.run = .error e))) := by
  rcases d with ⟨conn, run⟩
  cases conn with
  | error e =>
    exact ⟨by simp [database.query], by simp [database.query],
      Or.inr ⟨e, by simp [database.query], Or.inl rfl⟩⟩
  | ok u =>
    cases run with
    | ok r =>
      exact ⟨by simp [database.query], by simp [database.query],
        Or.inl ⟨r, by simp [database.query], rfl⟩⟩
    | error e =>
      exact ⟨by simp [database.query], by simp [database.query],
        Or.inr ⟨e, by simp [database.query], Or.inr rfl⟩⟩

/-- C3: comparing a password against its own hash succeeds, and comparing
it against the hash of a different password fails, in every environment and
for every salt. -/
theorem password_compare_hash_roundtrip (env : NodeEnv) (salt p q : String) :
    password.compare p (password.hash env salt p) = true ∧
    (p ≠ q → password.compare p (password.hash env salt q) = false) := by
  constructor
  · simp [password.compare, password.hash, bcryptjs.compare, bcryptjs.hash]
  · intro hne
    simp only [password.compare, password.hash, bcryptjs.compare, bcryptjs.hash]
    rw [beq_eq_false_iff_ne]
    exact fun hcontra => hne (bcryptDigest_inj salt p q hcontra)

/-- Witness for C3 at concrete passwords "a" and "b". -/
theorem password_compare_hash_roundtrip_witness :
    password.compare "a" (password.hash .development "somesalt" "a") = true ∧
    ("a" : String) ≠ "b" ∧
    password.compare "a" (password.hash .development "somesalt" "b") = false := by
  refine ⟨(password_compare_hash_roundtrip .development "somesalt" "a" "b").1,
    by decide, ?_⟩
  exact (password_compare_hash_roundtrip .development "somesalt" "a" "b").2 (by decide)

/-- Helper: the only error user.findOneByEmail can raise is its
NotFoundError. -/
lemma findOneByEmail_error_eq (t : UsersTable) (e : String) (err : AppError)
    (h : user.findOneByEmail t e = .error err) : err = emailNotFoundError := by
  unfold user.findOneByEmail at h
  cases hfil : t.rows.filter (fun r => sqlLower r.email == sqlLower e) with
  | nil =>
    rw [hfil] at h
    injection h with h'
    exact h'.symm
  | cons r rest =>
    rw [hfil] at h
    simp at h

/-- Helper: the only error the findUserByEmail step of the authentication
service can raise is the internal email-mismatch UnauthorizedError. -/
lemma auth_findUserByEmail_error_eq (t : UsersTable) (e : String) (err : AppError)
    (h : authentication.findUserByEmail t e = .error err) : err = emailMismatchError := by
  unfold authentication.findUserByEmail at h
  cases hf : user.findOneByEmail t e with
  | ok u => rw [hf] at h; simp at h
  | error e0 =>
    rw [hf] at h
    have he0 : e0 = emailNotFoundError := findOneByEmail_error_eq t e e0 hf
    subst he0
    simp [emailNotFoundError] at h
    exact h.symm

/-- Helper: the only error the validatePassword step can raise is the
internal password-mismatch UnauthorizedError. -/
lemma auth_validatePassword_error_eq (p : String) (hashv : BcryptHash) (err : AppError)
    (h : authentication.validatePassword p hashv = .error err) : err = passwordMismatchError := by
  unfold authentication.validatePassword at h
  cases hc : password.compare p hashv with
  | true => rw [hc] at h; simp at h
  | false =>
    rw [hc] at h
    simp at h
    exact h.symm

/-- Helper: every failure of getAuthenticatedUser reaching the caller is
exactly the generic UnauthorizedError built by the outer catch. -/
lemma getAuthenticatedUser_error_eq (t : UsersTable) (e p : String) (err : AppError)
    (h : authentication.getAuthenticatedUser t e p = .error err) : err = genericAuthError := by
  unfold authentication.getAuthenticatedUser at h
  cases hf : authentication.findUserByEmail t e with
  | error e0 =>
    rw [hf] at h
    have he0 := auth_findUserByEmail_error_eq t e e0 hf
    subst he0
    simp [emailMismatchError] at h
    exact h.symm
  | ok storedUser =>
    rw [hf] at h
    dsimp only at h
    cases hv : authentication.validatePassword p storedUser.password with
    | ok u => rw [hv] at h; simp at h
    | error e0 =>
      rw [hv] at h
      have he0 := auth_validatePassword_error_eq p storedUser.password e0 hv
      subst he0
      simp [passwordMismatchError] at h
      exact h.symm

/-- C1: any two failing authentication attempts — unknown email or wrong
password alike — surface UnauthorizedErrors with identical message and
identical action text, so the two causes are externally
indistinguishable. -/
theorem getAuthenticatedUser_failures_indistinguishable (t : UsersTable)
    (e1 p1 e2 p2 : String) (err1 err2 : AppError)
    (h1 : authentication.getAuthenticatedUser t e1 p1 = .error err1)
    (h2 : authentication.getAuthenticatedUser t e2 p2 = .error err2) :
    err1.name = .unauthorizedError ∧ err2.name = .unauthorizedError ∧
    err1.message = err2.message ∧ err1.action = err2.action := by
  have g1 := getAuthenticatedUser_error_eq t e1 p1 err1 h1
  have g2 := getAuthenticatedUser_error_eq t e2 p2 err2 h2
  subst g1
  subst g2
  exact ⟨rfl, rfl, rfl, rfl⟩

/-- Witness for C1: an unknown email and a wrong password against the
concrete directory produce the same error. -/
theorem getAuthenticatedUser_failures_indistinguishable_witness :
    authentication.getAuthenticatedUser demoUsers "nobody@x.com" "whatever" = .error genericAuthError ∧
    authentication.getAuthenticatedUser demoUsers "ana@x.com" "wrongpass" = .error genericAuthError ∧
    genericAuthError.name = .unauthorizedError ∧ genericAuthError.name = .unauthorizedError ∧
    genericAuthError.message = genericAuthError.message ∧
    genericAuthError.action = genericAuthError.action := by
  refine ⟨by decide, by decide, ?_⟩
  exact getAuthenticatedUser_failures_indistinguishable demoUsers
    "nobody@x.com" "whatever" "ana@x.com" "wrongpass"
    genericAuthError genericAuthError (by decide) (by decide)

/-- C10: renewing or expiring a session id that matches no stored row
raises no error, returns undefined (none), and leaves the session store
unchanged. -/
theorem renew_expireById_unknown_id_no_error (now : Int) (t : SessionsTable) (sid : Nat)
    (hmiss : ∀ s ∈ t.rows, s.id ≠ sid) :
    session.renew now t sid = (none, t) ∧ session.expireById now t sid = (none, t) := by
  rcases t with ⟨rows, nid⟩
  have hfil : ∀ l : List SessionRow, (∀ s ∈ l, s.id ≠ sid) →
      l.filter (fun s => s.id == sid) = [] := by
    intro l hl
    rw [List.filter_eq_nil_iff]
    intro a ha
    simp [hl a ha]
  constructor
  · unfold session.renew
    dsimp only
    have hmap : rows.map (fun s => if s.id == sid then
        { s with expires_at := now + session.EXPIRATION_IN_MILLISECONDS, updated_at := now }
      else s) = rows := by
      apply map_id_of_eq
      intro a ha
      simp [hmiss a ha]
    rw [hmap, hfil rows hmiss]
    rfl
  · unfold session.expireById
    dsimp only
    have hmap : rows.map (fun s => if s.id == sid then
        { s with expires_at := s.expires_at - ONE_YEAR_IN_MILLISECONDS, updated_at := now }
      else s) = rows := by
      apply map_id_of_eq
      intro a ha
      simp [hmiss a ha]
    rw [hmap, hfil rows hmiss]
    rfl

/-- Witness for C10 at a session id absent from the concrete store. -/
theorem renew_expireById_unknown_id_no_error_witness :
    (∀ s ∈ demoSessions.rows, s.id ≠ 99) ∧
    session.renew 5 demoSessions 99 = (none, demoSessions) ∧
    session.expireById 5 demoSessions 99 = (none, demoSessions) := by
  refine ⟨by decide, ?_⟩
  exact renew_expireById_unknown_id_no_error 5 demoSessions 99 (by decide)

/-- Helper: a successful username uniqueness probe means no stored row
matches the username case-insensitively. -/
lemma validateUniqueUsername_ok (t : UsersTable) (uname : String) (u : Unit)
    (h : user.validateUniqueUsername t uname = .ok u) :
    t.rows.filter (fun r => sqlLower r.username == sqlLower uname) = [] := by
  unfold user.validateUniqueUsername at h
  by_cases hlen : (t.rows.filter (fun r => sqlLower r.username == sqlLower uname)).length > 0
  · rw [if_pos hlen] at h
    simp at h
  · exact List.length_eq_zero.mp (Nat.eq_zero_of_not_pos hlen)

/-- Helper: a successful email uniqueness probe means no stored row
matches the email case-insensitively. -/
lemma validateUniqueEmail_ok (t : UsersTable) (email : String) (u : Unit)
    (h : user.validateUniqueEmail t email = .ok u) :
    t.rows.filter (fun r => sqlLower r.email == sqlLower email) = [] := by
  unfold user.validateUniqueEmail at h
  by_cases hlen : (t.rows.filter (fun r => sqlLower r.email == sqlLower email)).length > 0
  · rw [if_pos hlen] at h
    simp at h
  · exact List.length_eq_zero.mp (Nat.eq_zero_of_not_pos hlen)

/-- Helper: a user returned by findOneByUsername is a stored row. -/
lemma findOneByUsername_ok_mem (t : UsersTable) (uname : String) (r : UserRow)
    (h : user.findOneByUsername t uname = .ok r) : r ∈ t.rows := by
  unfold user.findOneByUsername at h
  cases hfil : t.rows.filter (fun x => sqlLower x.username == sqlLower uname) with
  | nil => rw [hfil] at h; simp at h
  | cons r0 rest =>
    rw [hfil] at h
    injection h with h'
    subst h'
    have : r0 ∈ t.rows.filter (fun x => sqlLower x.username == sqlLower uname) := by
      rw [hfil]; exact List.mem_cons_self _ _
    exact (List.mem_filter.mp this).1

/-- Helper: anatomy of a successful user.create — both probes found
nothing, the returned row is the hashed insert, and the table gained
exactly that row. -/
lemma create_ok_elim (env : NodeEnv) (salt : String) (now : Int) (t : UsersTable)
    (input : UserInput) (r1 : UserRow) (t1 : UsersTable)
    (hc : user.create env salt now t input = (.ok r1, t1)) :
    t.rows.filter (fun r => sqlLower r.username == sqlLower input.username) = [] ∧
    t.rows.filter (fun r => sqlLower r.email == sqlLower input.email) = [] ∧
    r1 = { id := t.nextId, username := input.username, email := input.email
         , password := password.hash env salt input.password
         , created_at := now, updated_at := now } ∧
    t1 = { rows := t.rows ++ [r1], nextId := t.nextId + 1 } := by
  unfold user.create at hc
  cases hvu : user.validateUniqueUsername t input.username with
  | error e => rw [hvu] at hc; simp at hc
  | ok u0 =>
    rw [hvu] at hc
    dsimp only at hc
    cases hve : user.validateUniqueEmail t input.email with
    | error e => rw [hve] at hc; simp at hc
    | ok u1 =>
      rw [hve] at hc
      dsimp only at hc
      rw [Prod.mk.injEq] at hc
      obtain ⟨hfst, hsnd⟩ := hc
      injection hfst with hr
      refine ⟨validateUniqueUsername_ok t input.username u0 hvu,
        validateUniqueEmail_ok t input.email u1 hve, hr.symm, ?_⟩
      rw [← hsnd, hr]

/-- C8: after a successful create with some username, findOneByUsername
succeeds for every letter-case variant of that username and returns the
created user. -/
theorem create_then_findOneByUsername_roundtrip (env : NodeEnv) (salt : String)
    (now : Int) (t : UsersTable) (input : UserInput) (r1 : UserRow) (t1 : UsersTable)
    (w : String)
    (hc : user.create env salt now t input = (.ok r1, t1))
    (hw : sqlLower w = sqlLower input.username) :
    user.findOneByUsername t1 w = .ok r1 := by
  obtain ⟨hfilu, _, hr1, ht1⟩ := create_ok_elim env salt now t input r1 t1 hc
  unfold user.findOneByUsername
  rw [ht1]
  dsimp only
  have hpred : (fun r : UserRow => sqlLower r.username == sqlLower w) =
      (fun r : UserRow => sqlLower r.username == sqlLower input.username) := by
    funext r
    rw [hw]
  rw [List.filter_append, hpred, hfilu]
  have : [r1].filter (fun r : UserRow => sqlLower r.username == sqlLower input.username) = [r1] := by
    rw [List.filter_cons]
    rw [if_pos]
    · rfl
    · rw [hr1]
      exact beq_self_eq_true _
  rw [this]
  rfl

/-- Witness for C8: create "foo" in the empty directory, then look it up
as "Foo". -/
theorem create_then_findOneByUsername_roundtrip_witness :
    user.create .development "s1" 0 emptyUsers fooInput = (.ok fooUser, fooUsers) ∧
    sqlLower "Foo" = sqlLower fooInput.username ∧
    user.findOneByUsername fooUsers "Foo" = .ok fooUser := by
  refine ⟨by decide, by decide, ?_⟩
  exact create_then_findOneByUsername_roundtrip .development "s1" 0 emptyUsers
    fooInput fooUser fooUsers "Foo" (by decide) (by decide)

/-- Helper: the only error the username uniqueness probe can raise is its
ValidationError. -/
lemma validateUniqueUsername_error_eq (t : UsersTable) (uname : String) (e : AppError)
    (h : user.validateUniqueUsername t uname = .error e) : e = usernameTakenError := by
  unfold user.validateUniqueUsername at h
  by_cases hlen : 0 < (t.rows.filter (fun r => sqlLower r.username == sqlLower uname)).length
  · rw [if_pos hlen] at h
    injection h with h'
    exact h'.symm
  · rw [if_neg hlen] at h
    simp at h

/-- C9: updating a user while resubmitting the user's own current username
(or the user's own current email) in any letter case fails with
ValidationError and leaves the directory unchanged, because the uniqueness
probes count every matching row without excluding the row being updated;
in the own-email case any username also present in the payload either trips
the username probe first (also ValidationError) or passes it, after which
the email probe rejects. -/
theorem update_self_value_rejected (env : NodeEnv) (salt : String) (now : Int)
    (t : UsersTable) (u : UserRow) (input : UserUpdateInput)
    (hu : u ∈ t.rows)
    (hdup : (∃ w, input.username = some w ∧ sqlLower w = sqlLower u.username) ∨
            (∃ m, input.email = some m ∧ sqlLower m = sqlLower u.email)) :
    ∃ err, err.name = .validationError ∧
      user.update env salt now t u.username input = (.error err, t) := by
  have hfind : ∃ r0, user.findOneByUsername t u.username = .ok r0 := by
    unfold user.findOneByUsername
    cases hfil : t.rows.filter (fun r => sqlLower r.username == sqlLower u.username) with
    | nil =>
      exfalso
      have := List.filter_eq_nil_iff.mp hfil u hu
      simp at this
    | cons r0 rest => exact ⟨r0, rfl⟩
  obtain ⟨r0, hr0⟩ := hfind
  have hemailfail : ∀ m, sqlLower m = sqlLower u.email →
      user.validateUniqueEmail t m = .error emailTakenError := by
    intro m hmlow
    unfold user.validateUniqueEmail
    rw [if_pos]
    have humem : u ∈ t.rows.filter (fun r => sqlLower r.email == sqlLower m) :=
      List.mem_filter.mpr ⟨hu, by rw [hmlow]; exact beq_self_eq_true _⟩
    exact List.length_pos.mpr (List.ne_nil_of_mem humem)
  unfold user.update
  rw [hr0]
  dsimp only
  rcases hdup with ⟨w, hwin, hwlow⟩ | ⟨m, hmin, hmlow⟩
  · rw [hwin]
    dsimp only
    have hvfail : user.validateUniqueUsername t w = .error usernameTakenError := by
      unfold user.validateUniqueUsername
      rw [if_pos]
      have humem : u ∈ t.rows.filter (fun r => sqlLower r.username == sqlLower w) :=
        List.mem_filter.mpr ⟨hu, by rw [hwlow]; exact beq_self_eq_true _⟩
      exact List.length_pos.mpr (List.ne_nil_of_mem humem)
    rw [hvfail]
    exact ⟨usernameTakenError, rfl, rfl⟩
  · cases hin : input.username with
    | none =>
      dsimp only
      rw [hmin]
      dsimp only
      rw [hemailfail m hmlow]
      exact ⟨emailTakenError, rfl, rfl⟩
    | some w =>
      dsimp only
      cases hv : user.validateUniqueUsername t w with
      | error e =>
        have he := validateUniqueUsername_error_eq t w e hv
        subst he
        exact ⟨usernameTakenError, rfl, rfl⟩
      | ok u0 =>
        dsimp only
        rw [hmin]
        dsimp only
        rw [hemailfail m hmlow]
        exact ⟨emailTakenError, rfl, rfl⟩

/-- Witness for C9: an update payload that changes Ana's username while
resubmitting Ana's own email in another letter case is rejected. -/
theorem update_self_value_rejected_witness :
    (UserRow.mk 1 "Ana" "ana@x.com" demoHash 0 0) ∈ demoUsers.rows ∧
    ∃ err, err.name = .validationError ∧
      user.update .development "s9" 7 demoUsers "Ana"
        (UserUpdateInput.mk (some "Newname") (some "ANA@X.COM") none) = (.error err, demoUsers) := by
  refine ⟨by decide, ?_⟩
  exact update_self_value_rejected .development "s9" 7 demoUsers
    (UserRow.mk 1 "Ana" "ana@x.com" demoHash 0 0)
    (UserUpdateInput.mk (some "Newname") (some "ANA@X.COM") none)
    (by decide) (Or.inr ⟨"ANA@X.COM", rfl, by decide⟩)

/-- Helper: mapping then filtering a list whose only p-element is s, when
the map preserves p, yields g s first. -/
lemma head_filter_map_unique {α : Type} (g : α → α) (p : α → Bool) (l : List α) (s : α)
    (hmem : s ∈ l) (hps : p s = true)
    (hgp : ∀ r, p (g r) = p r)
    (huniq : ∀ r ∈ l, p r = true → r = s) :
    ((l.map g).filter p).head? = some (g s) := by
  induction l with
  | nil => cases hmem
  | cons a as ih =>
    rw [List.map_cons, List.filter_cons]
    by_cases hpa : p (g a) = true
    · rw [if_pos hpa]
      have ha : a = s := huniq a (List.mem_cons_self a as) (by rw [← hgp a]; exact hpa)
      rw [ha]
      rfl
    · rw [if_neg hpa]
      have hsmem : s ∈ as := by
        cases List.mem_cons.mp hmem with
        | inl h =>
          exfalso
          apply hpa
          rw [hgp, ← h]
          exact hps
        | inr h => exact h
      exact ih hsmem (fun r hr hpr => huniq r (List.mem_cons_of_mem a hr) hpr)

/-- Counterexample to C6 as stated: when renew runs at the very instant
from which the session's expires_at was computed (same Date.now()
millisecond), the new expires_at equals the old one, so renew does not
strictly increase expires_at for every stored session. -/
theorem renew_strict_increase_counterexample :
    ¬ (∀ (now : Int) (t : SessionsTable) (s s' : SessionRow),
        s ∈ t.rows → (session.renew now t s.id).1 = some s' →
        s.expires_at < s'.expires_at) := by
  intro hclaim
  have h := hclaim 0 demoSessions
    (SessionRow.mk 1 "tok" 1 2592000000 0 0)
    (SessionRow.mk 1 "tok" 1 2592000000 0 0)
    (by decide) (by decide)
  exact absurd h (by decide)

/-- C6 (amended): renew sets expires_at to now plus the 30-day window,
keeps the token (and id, user, creation time) unchanged, deletes nothing,
and strictly increases expires_at whenever its prior value was below
now + 30 days — that is, whenever the clock has advanced since the prior
value was computed; at the same millisecond it stays equal. -/
theorem renew_extends_expiration (now : Int) (t : SessionsTable) (s : SessionRow)
    (hmem : s ∈ t.rows)
    (hidu : ∀ r ∈ t.rows, r.id = s.id → r = s) :
    ∃ s' t', session.renew now t s.id = (some s', t') ∧
      s'.expires_at = now + session.EXPIRATION_IN_MILLISECONDS ∧
      s'.token = s.token ∧ s'.id = s.id ∧ s'.user_id = s.user_id ∧
      s'.created_at = s.created_at ∧
      t'.rows.length = t.rows.length ∧
      (s.expires_at < now + session.EXPIRATION_IN_MILLISECONDS →
        s.expires_at < s'.expires_at) := by
  have hhead := head_filter_map_unique
    (fun r : SessionRow =>
      if r.id == s.id then
        { r with expires_at := now + session.EXPIRATION_IN_MILLISECONDS, updated_at := now }
      else r)
    (fun r : SessionRow => r.id == s.id) t.rows s hmem (by simp)
    (fun r => by by_cases h : (r.id == s.id) = true <;> simp [h])
    (fun r hr hpr => hidu r hr (by simpa using hpr))
  refine ⟨{ s with expires_at := now + session.EXPIRATION_IN_MILLISECONDS, updated_at := now },
    { t with rows := t.rows.map (fun r : SessionRow =>
        if r.id == s.id then
          { r with expires_at := now + session.EXPIRATION_IN_MILLISECONDS, updated_at := now }
        else r) },
    ?_, rfl, rfl, rfl, rfl, rfl, by simp, fun h => h⟩
  unfold session.renew
  dsimp only
  rw [hhead]
  simp

/-- Witness for C6 (amended) at a concrete store one millisecond after the
session's expiry basis, where the strict increase is visible. -/
theorem renew_extends_expiration_witness :
    (SessionRow.mk 1 "tok" 1 2592000000 0 0) ∈ demoSessions.rows ∧
    ∃ s' t', session.renew 1 demoSessions 1 = (some s', t') ∧
      s'.expires_at = 1 + session.EXPIRATION_IN_MILLISECONDS ∧
      s'.token = "tok" ∧ s'.id = 1 ∧ s'.user_id = 1 ∧
      s'.created_at = 0 ∧
      t'.rows.length = demoSessions.rows.length ∧
      ((2592000000 : Int) < 1 + session.EXPIRATION_IN_MILLISECONDS →
        (2592000000 : Int) < s'.expires_at) := by
  refine ⟨by decide, ?_⟩
  exact renew_extends_expiration 1 demoSessions
    (SessionRow.mk 1 "tok" 1 2592000000 0 0) (by decide) (by decide)

/-- C4: expiring a reachable stored session backdates its expires_at by
one year — strictly into the past — without deleting the row, after which
findOneValidByToken fails for its token with the same UnauthorizedError it
raises for a token that never existed. -/
theorem expireById_backdates_and_invalidates (now now2 : Int) (t : SessionsTable)
    (s : SessionRow)
    (hmem : s ∈ t.rows)
    (hreach : s.expires_at ≤ now + session.EXPIRATION_IN_MILLISECONDS)
    (hidu : ∀ r ∈ t.rows, r.id = s.id → r = s)
    (htoku : ∀ r ∈ t.rows, r.token = s.token → r = s)
    (hnow2 : now ≤ now2) :
    (∃ s' t', session.expireById now t s.id = (some s', t') ∧
      s'.expires_at = s.expires_at - ONE_YEAR_IN_MILLISECONDS ∧
      s'.expires_at < now ∧
      s'.token = s.token ∧
      t'.rows.length = t.rows.length ∧ s' ∈ t'.rows ∧
      session.findOneValidByToken now2 t' s.token = .error sessionNotActiveError) ∧
    (∀ (now3 : Int) (t3 : SessionsTable) (tok : String),
      (∀ r ∈ t3.rows, r.token ≠ tok) →
      session.findOneValidByToken now3 t3 tok = .error sessionNotActiveError) := by
  constructor
  · have hhead := head_filter_map_unique
      (fun r : SessionRow =>
        if r.id == s.id then
          { r with expires_at := r.expires_at - ONE_YEAR_IN_MILLISECONDS, updated_at := now }
        else r)
      (fun r : SessionRow => r.id == s.id) t.rows s hmem (by simp)
      (fun r => by by_cases h : (r.id == s.id) = true <;> simp [h])
      (fun r hr hpr => hidu r hr (by simpa using hpr))
    refine ⟨{ s with expires_at := s.expires_at - ONE_YEAR_IN_MILLISECONDS, updated_at := now },
      { t with rows := t.rows.map (fun r : SessionRow =>
          if r.id == s.id then
            { r with expires_at := r.expires_at - ONE_YEAR_IN_MILLISECONDS, updated_at := now }
          else r) },
      ?_, rfl, ?_, rfl, by simp, ?_, ?_⟩
    · unfold session.expireById
      dsimp only
      rw [hhead]
      simp
    · show s.expires_at - ONE_YEAR_IN_MILLISECONDS < now
      unfold session.EXPIRATION_IN_MILLISECONDS at hreach
      unfold ONE_YEAR_IN_MILLISECONDS
      omega
    · have hm := List.mem_map_of_mem
        (fun r : SessionRow =>
          if r.id == s.id then
            { r with expires_at := r.expires_at - ONE_YEAR_IN_MILLISECONDS, updated_at := now }
          else r) hmem
      simpa using hm
    · unfold session.findOneValidByToken
      have hfil : (t.rows.map (fun r : SessionRow =>
          if r.id == s.id then
            { r with expires_at := r.expires_at - ONE_YEAR_IN_MILLISECONDS, updated_at := now }
          else r)).filter (fun r => r.token == s.token && now2 < r.expires_at) = [] := by
        rw [List.filter_eq_nil_iff]
        intro x hx
        obtain ⟨r, hr, hxe⟩ := List.mem_map.mp hx
        subst hxe
        by_cases hid : (r.id == s.id) = true
        · have hrs : r = s := hidu r hr (by simpa using hid)
          subst hrs
          have hnl : ¬ (now2 < r.expires_at - ONE_YEAR_IN_MILLISECONDS) := by
            unfold session.EXPIRATION_IN_MILLISECONDS at hreach
            unfold ONE_YEAR_IN_MILLISECONDS
            omega
          simp [hid, hnl]
        · simp only [hid, if_false, Bool.and_eq_true, decide_eq_true_eq, beq_iff_eq, not_and]
          intro htok
          exfalso
          have hrs := htoku r hr htok
          rw [hrs] at hid
          simp at hid
      rw [hfil]
  · intro now3 t3 tok hno
    unfold session.findOneValidByToken
    have hfil : t3.rows.filter (fun r => r.token == tok && now3 < r.expires_at) = [] := by
      rw [List.filter_eq_nil_iff]
      intro r hr
      simp [hno r hr]
    rw [hfil]

/-- Witness for C4: expiring the concrete demo session at time 0, then
looking its token up at time 5. -/
theorem expireById_backdates_and_invalidates_witness :
    (SessionRow.mk 1 "tok" 1 2592000000 0 0) ∈ demoSessions.rows ∧
    (2592000000 : Int) ≤ 0 + session.EXPIRATION_IN_MILLISECONDS ∧
    (0 : Int) ≤ 5 ∧
    (∃ s' t', session.expireById 0 demoSessions 1 = (some s', t') ∧
      s'.expires_at = 2592000000 - ONE_YEAR_IN_MILLISECONDS ∧
      s'.expires_at < 0 ∧
      s'.token = "tok" ∧
      t'.rows.length = demoSessions.rows.length ∧ s' ∈ t'.rows ∧
      session.findOneValidByToken 5 t' "tok" = .error sessionNotActiveError) := by
  refine ⟨by decide, by decide, by decide, ?_⟩
  exact (expireById_backdates_and_invalidates 0 5 demoSessions
    (SessionRow.mk 1 "tok" 1 2592000000 0 0)
    (by decide) (by decide) (by decide) (by decide) (by decide)).1

/-- Helper: two stored rows with the same id are the same row, under the
primary-key invariant. -/
lemma eq_of_uniqueIds_mem (t : UsersTable) (hid : uniqueIds t) (a b : UserRow)
    (ha : a ∈ t.rows) (hb : b ∈ t.rows) (heq : a.id = b.id) : a = b := by
  by_contra hne
  unfold uniqueIds at hid
  exact (List.Pairwise.forall (fun x y h => Ne.symm h) hid ha hb hne) heq

/-- Helper: a successful user.update preserves the case-insensitive
uniqueness of usernames and emails (given primary-key uniqueness). -/
lemma update_ok_preserves_unique (env : NodeEnv) (salt : String) (now : Int)
    (t : UsersTable) (uname : String) (input : UserUpdateInput)
    (r2 : UserRow) (t2 : UsersTable)
    (hui : uniqueUsernames t) (hue : uniqueEmails t) (hid : uniqueIds t)
    (hup : user.update env salt now t uname input = (.ok r2, t2)) :
    uniqueUsernames t2 ∧ uniqueEmails t2 := by
  unfold user.update at hup
  cases hf : user.findOneByUsername t uname with
  | error e => rw [hf] at hup; simp at hup
  | ok cur =>
    rw [hf] at hup
    dsimp only at hup
    cases hvu : (match input.username with
                 | some u => user.validateUniqueUsername t u
                 | none => Except.ok ()) with
    | error e => rw [hvu] at hup; simp at hup
    | ok u0 =>
      rw [hvu] at hup
      dsimp only at hup
      cases hve : (match input.email with
                   | some m => user.validateUniqueEmail t m
                   | none => Except.ok ()) with
      | error e => rw [hve] at hup; simp at hup
      | ok u1 =>
        rw [hve] at hup
        dsimp only at hup
        rw [Prod.mk.injEq] at hup
        obtain ⟨hfst, hsnd⟩ := hup
        have hcur : cur ∈ t.rows := findOneByUsername_ok_mem t uname cur hf
        subst hsnd
        unfold uniqueUsernames uniqueEmails uniqueIds at *
        constructor
        · dsimp only
          rw [List.pairwise_map]
          refine List.Pairwise.imp_of_mem ?_ (List.Pairwise.and hui hid)
          intro a b ha hb hab
          obtain ⟨hU, hI⟩ := hab
          by_cases hA : (a.id == cur.id) = true
          · by_cases hB : (b.id == cur.id) = true
            · exfalso
              apply hI
              have ha' : a.id = cur.id := by simpa using hA
              have hb' : b.id = cur.id := by simpa using hB
              rw [ha', hb']
            · simp only [hA, hB, if_true, Bool.false_eq_true, if_false]
              cases hin : input.username with
              | some w =>
                rw [hin] at hvu
                have hfil := validateUniqueUsername_ok t w u0 hvu
                have hfresh := List.filter_eq_nil_iff.mp hfil b hb
                simp only [beq_iff_eq] at hfresh
                simp only [Option.getD_some]
                exact fun hcontra => hfresh hcontra.symm
              | none =>
                have ha' : a.id = cur.id := by simpa using hA
                have hac : a = cur := by
                  by_contra hne
                  exact (List.Pairwise.forall (fun x y h => Ne.symm h) hid ha hcur hne) ha'
                simp only [Option.getD_none]
                rw [← hac]
                exact hU
          · by_cases hB : (b.id == cur.id) = true
            · simp only [hA, hB, if_true, Bool.false_eq_true, if_false]
              cases hin : input.username with
              | some w =>
                rw [hin] at hvu
                have hfil := validateUniqueUsername_ok t w u0 hvu
                have hfresh := List.filter_eq_nil_iff.mp hfil a ha
                simp only [beq_iff_eq] at hfresh
                simp only [Option.getD_some]
                exact hfresh
              | none =>
                have hb' : b.id = cur.id := by simpa using hB
                have hbc : b = cur := by
                  by_contra hne
                  exact (List.Pairwise.forall (fun x y h => Ne.symm h) hid hb hcur hne) hb'
                simp only [Option.getD_none]
                rw [← hbc]
                exact hU
            · simp only [hA, hB, Bool.false_eq_true, if_false]
              exact hU
        · dsimp only
          rw [List.pairwise_map]
          refine List.Pairwise.imp_of_mem ?_ (List.Pairwise.and hue hid)
          intro a b ha hb hab
          obtain ⟨hE, hI⟩ := hab
          by_cases hA : (a.id == cur.id) = true
          · by_cases hB : (b.id == cur.id) = true
            · exfalso
              apply hI
              have ha' : a.id = cur.id := by simpa using hA
              have hb' : b.id = cur.id := by simpa using hB
              rw [ha', hb']
            · simp only [hA, hB, if_true, Bool.false_eq_true, if_false]
              cases hin : input.email with
              | some m =>
                rw [hin] at hve
                have hfil := validateUniqueEmail_ok t m u1 hve
                have hfresh := List.filter_eq_nil_iff.mp hfil b hb
                simp only [beq_iff_eq] at hfresh
                simp only [Option.getD_some]
                exact fun hcontra => hfresh hcontra.symm
              | none =>
                have ha' : a.id = cur.id := by simpa using hA
                have hac : a = cur := by
                  by_contra hne
                  exact (List.Pairwise.forall (fun x y h => Ne.symm h) hid ha hcur hne) ha'
                simp only [Option.getD_none]
                rw [← hac]
                exact hE
          · by_cases hB : (b.id == cur.id) = true
            · simp only [hA, hB, if_true, Bool.false_eq_true, if_false]
              cases hin : input.email with
              | some m =>
                rw [hin] at hve
                have hfil := validateUniqueEmail_ok t m u1 hve
                have hfresh := List.filter_eq_nil_iff.mp hfil a ha
                simp only [beq_iff_eq] at hfresh
                simp only [Option.getD_some]
                exact hfresh
              | none =>
                have hb' : b.id = cur.id := by simpa using hB
                have hbc : b = cur := by
                  by_contra hne
                  exact (List.Pairwise.forall (fun x y h => Ne.symm h) hid hb hcur hne) hb'
                simp only [Option.getD_none]
                rw [← hbc]
                exact hE
            · simp only [hA, hB, Bool.false_eq_true, if_false]
              exact hE

/-- C5: the mutating User Directory operations preserve case-insensitive
uniqueness of usernames and emails — create keeps the invariant, a second
create reusing the username or the email in any letter case fails with
ValidationError and inserts nothing, and a successful update also keeps
the invariant. -/
theorem user_directory_uniqueness_invariant (env : NodeEnv) (salt1 salt2 : String)
    (now1 now2 : Int) (t : UsersTable) (i1 i2 : UserInput) (r1 : UserRow) (t1 : UsersTable)
    (hui : uniqueUsernames t) (hue : uniqueEmails t)
    (hc : user.create env salt1 now1 t i1 = (.ok r1, t1)) :
    (uniqueUsernames t1 ∧ uniqueEmails t1) ∧
    ((sqlLower i2.username = sqlLower i1.username ∨ sqlLower i2.email = sqlLower i1.email) →
      ∃ err, err.name = .validationError ∧
        user.create env salt2 now2 t1 i2 = (.error err, t1)) ∧
    (∀ (uname : String) (input : UserUpdateInput) (r2 : UserRow) (t2 : UsersTable),
      uniqueIds t →
      user.update env salt2 now2 t uname input = (.ok r2, t2) →
      uniqueUsernames t2 ∧ uniqueEmails t2) := by
  obtain ⟨hfilu, hfile, hr1, ht1⟩ := create_ok_elim env salt1 now1 t i1 r1 t1 hc
  have hr1mem : r1 ∈ t1.rows := by
    rw [ht1]
    exact List.mem_append_right _ (List.mem_cons_self _ _)
  refine ⟨?_, ?_, ?_⟩
  · rw [ht1]
    unfold uniqueUsernames uniqueEmails at *
    constructor
    · dsimp only
      rw [List.pairwise_append]
      refine ⟨hui, by simp, ?_⟩
      intro a ha b hb
      rw [List.mem_singleton] at hb
      subst hb
      have hfr := List.filter_eq_nil_iff.mp hfilu a ha
      simp only [beq_iff_eq] at hfr
      rw [hr1]
      exact hfr
    · dsimp only
      rw [List.pairwise_append]
      refine ⟨hue, by simp, ?_⟩
      intro a ha b hb
      rw [List.mem_singleton] at hb
      subst hb
      have hfr := List.filter_eq_nil_iff.mp hfile a ha
      simp only [beq_iff_eq] at hfr
      rw [hr1]
      exact hfr
  · intro hdup
    by_cases hlen : 0 < (t1.rows.filter (fun r => sqlLower r.username == sqlLower i2.username)).length
    · refine ⟨usernameTakenError, rfl, ?_⟩
      unfold user.create user.validateUniqueUsername
      rw [if_pos hlen]
    · cases hdup with
      | inl hun =>
        exfalso
        apply hlen
        have hmemfil : r1 ∈ t1.rows.filter (fun r => sqlLower r.username == sqlLower i2.username) :=
          List.mem_filter.mpr ⟨hr1mem, by simp [hr1, hun]⟩
        exact List.length_pos.mpr (List.ne_nil_of_mem hmemfil)
      | inr hem =>
        refine ⟨emailTakenError, rfl, ?_⟩
        have hlen2 : 0 < (t1.rows.filter (fun r => sqlLower r.email == sqlLower i2.email)).length := by
          have hmemfil : r1 ∈ t1.rows.filter (fun r => sqlLower r.email == sqlLower i2.email) :=
            List.mem_filter.mpr ⟨hr1mem, by simp [hr1, hem]⟩
          exact List.length_pos.mpr (List.ne_nil_of_mem hmemfil)
        unfold user.create user.validateUniqueUsername user.validateUniqueEmail
        rw [if_neg hlen]
        dsimp only
        rw [if_pos hlen2]
  · intro uname input r2 t2 hid hup
    exact update_ok_preserves_unique env salt2 now2 t uname input r2 t2 hui hue hid hup

/-- Witness for C5: create "foo" in the empty directory, then try to
create "FOO". -/
theorem user_directory_uniqueness_invariant_witness :
    uniqueUsernames emptyUsers ∧ uniqueEmails emptyUsers ∧
    user.create .development "s1" 0 emptyUsers fooInput = (.ok fooUser, fooUsers) ∧
    sqlLower fooInputCaseVariant.username = sqlLower fooInput.username ∧
    ∃ err, err.name = .validationError ∧
      user.create .development "s2" 9 fooUsers fooInputCaseVariant = (.error err, fooUsers) := by
  refine ⟨List.Pairwise.nil, List.Pairwise.nil, by decide, by decide, ?_⟩
  exact (user_directory_uniqueness_invariant .development "s1" "s2" 0 9 emptyUsers
    fooInput fooInputCaseVariant fooUser fooUsers List.Pairwise.nil List.Pairwise.nil
    (by decide)).2.1 (Or.inl (by decide))
